import Mathlib

/-!
# Verification of the travel-planner POI normalization pipeline

Shallow embedding of the normalization/deduplication logic of the
`ahlag/travel-planner` scrapers:

* `src/data/scrapers/gotokyo_events.py` (`GoTokyoEventScraper`)
* `src/data/scrapers/tabelog_food.py` (`TabelogScraper`)
* `src/data/scrapy_scrapers/travel_scrapers/pipelines.py`
* `src/data/scrapy_scrapers/travel_scrapers/spiders/gotokyo_events.py`
* `src/data/scrapy_scrapers/travel_scrapers/items.py`

Python strings are modelled as Lean `String` / `List Char`; machine bytes and
32-bit words as `Nat` reduced with `% 2^32` where overflow matters; fallible
Python code (exceptions caught by `except`) as `Option`.  Python `str.lower`
and `str.strip` are embedded for the ASCII range, which covers every string
constant the scrapers match against (the Japanese keyword characters are
unaffected by lowering).
-/

namespace TravelPlanner

/-! ## Python string primitives -/

/-- Characters removed by Python `str.strip()` (ASCII whitespace). -/
def isPySpace (c : Char) : Bool :=
  c = ' ' || c = '\t' || c = '\n' || c = '\x0d' || c = '\x0b' || c = '\x0c'

/-- Python `str.strip()` on a character list. -/
def pyStripList (l : List Char) : List Char :=
  ((l.dropWhile isPySpace).reverse.dropWhile isPySpace).reverse

/-- Python `str.strip()`. -/
def pyStrip (s : String) : String := ⟨pyStripList s.data⟩

/-- Python `str.lower()` (ASCII letters; other characters unchanged). -/
def pyLower (s : String) : String := ⟨s.data.map Char.toLower⟩

/-- Predicate `isPrefixList n h = true` iff `n` is a prefix of `h` (by `=` on chars). -/
def isPrefixList : List Char → List Char → Bool
  | [], _ => true
  | _ :: _, [] => false
  | a :: as, b :: bs => a = b && isPrefixList as bs

/-- Embeds the Python substring test `needle in hay`. -/
def containsSub (needle : List Char) : List Char → Bool
  | [] => isPrefixList needle []
  | c :: rest => isPrefixList needle (c :: rest) || containsSub needle rest

/-- Python `needle in hay` on strings. -/
def strContains (hay needle : String) : Bool := containsSub needle.data hay.data

/-- Predicate `isSuffixList n h = true` iff `n` is a suffix of `h` (Python `endswith`). -/
def isSuffixList (needle hay : List Char) : Bool :=
  isPrefixList needle.reverse hay.reverse

/-! ## UTF-8 encoding (Python `str.encode('utf-8')`)

Encodes a Unicode scalar value into its UTF-8 byte sequence, exactly as
CPython does for every valid `Char`. -/

/-- UTF-8 bytes of one code point. -/
def utf8EncodeCodePoint (n : Nat) : List Nat :=
  if n < 128 then [n]
  else if n < 2048 then [192 + n / 64, 128 + n % 64]
  else if n < 65536 then [224 + n / 4096, 128 + n / 64 % 64, 128 + n % 64]
  else [240 + n / 262144, 128 + n / 4096 % 64, 128 + n / 64 % 64, 128 + n % 64]

/-- UTF-8 bytes of a string (Python `s.encode('utf-8')`). -/
def utf8Bytes (s : String) : List Nat :=
  s.data.flatMap (fun c => utf8EncodeCodePoint c.toNat)

/-! ## MD5 (`hashlib.md5`)

A faithful implementation of RFC 1321 over byte lists, with 32-bit words as
`Nat` reduced modulo `2^32`.  Used by every `generate_poi_id` in the repo. -/

/-- Reduce to a 32-bit word. -/
def w32 (n : Nat) : Nat := n % 4294967296

/-- Bitwise complement within 32 bits (argument first reduced to 32 bits). -/
def wnot (n : Nat) : Nat := 4294967295 - w32 n

/-- Left rotation within 32 bits. -/
def rotl (x s : Nat) : Nat := w32 ((x <<< s) ||| (x >>> (32 - s)))

/-- MD5 per-round shift amounts. -/
def md5s : List Nat :=
  [7, 12, 17, 22, 7, 12, 17, 22, 7, 12, 17, 22, 7, 12, 17, 22,
   5, 9, 14, 20, 5, 9, 14, 20, 5, 9, 14, 20, 5, 9, 14, 20,
   4, 11, 16, 23, 4, 11, 16, 23, 4, 11, 16, 23, 4, 11, 16, 23,
   6, 10, 15, 21, 6, 10, 15, 21, 6, 10, 15, 21, 6, 10, 15, 21]

/-- MD5 sine-derived constants. -/
def md5k : List Nat :=
  [0xd76aa478, 0xe8c7b756, 0x242070db, 0xc1bdceee,
   0xf57c0faf, 0x4787c62a, 0xa8304613, 0xfd469501,
   0x698098d8, 0x8b44f7af, 0xffff5bb1, 0x895cd7be,
   0x6b901122, 0xfd987193, 0xa679438e, 0x49b40821,
   0xf61e2562, 0xc040b340, 0x265e5a51, 0xe9b6c7aa,
   0xd62f105d, 0x02441453, 0xd8a1e681, 0xe7d3fbc8,
   0x21e1cde6, 0xc33707d6, 0xf4d50d87, 0x455a14ed,
   0xa9e3e905, 0xfcefa3f8, 0x676f02d9, 0x8d2a4c8a,
   0xfffa3942, 0x8771f681, 0x6d9d6122, 0xfde5380c,
   0xa4beea44, 0x4bdecfa9, 0xf6bb4b60, 0xbebfbc70,
   0x289b7ec6, 0xeaa127fa, 0xd4ef3085, 0x04881d05,
   0xd9d4d039, 0xe6db99e5, 0x1fa27cf8, 0xc4ac5665,
   0xf4292244, 0x432aff97, 0xab9423a7, 0xfc93a039,
   0x655b59c3, 0x8f0ccc92, 0xffeff47d, 0x85845dd1,
   0x6fa87e4f, 0xfe2ce6e0, 0xa3014314, 0x4e0811a1,
   0xf7537e82, 0xbd3af235, 0x2ad7d2bb, 0xeb86d391]

/-- Little-endian 32-bit word read from a byte list at index `4*g`. -/
def chunkWord (chunk : List Nat) (g : Nat) : Nat :=
  chunk.getD (4 * g) 0 + 256 * chunk.getD (4 * g + 1) 0 +
    65536 * chunk.getD (4 * g + 2) 0 + 16777216 * chunk.getD (4 * g + 3) 0

/-- One of the 64 MD5 operations on the running state `(a, b, c, d)`. -/
def md5Step (chunk : List Nat) (st : Nat × Nat × Nat × Nat) (i : Nat) :
    Nat × Nat × Nat × Nat :=
  let (a, b, c, d) := st
  let fg : Nat × Nat :=
    if i < 16 then ((b &&& c) ||| (wnot b &&& d), i)
    else if i < 32 then ((d &&& b) ||| (wnot d &&& c), (5 * i + 1) % 16)
    else if i < 48 then (b ^^^ c ^^^ d, (3 * i + 5) % 16)
    else (c ^^^ (b ||| wnot d), (7 * i) % 16)
  let f := w32 (fg.1 + a + md5k.getD i 0 + chunkWord chunk fg.2)
  (d, w32 (b + rotl f (md5s.getD i 0)), b, c)

/-- Process one 64-byte chunk, updating the four state registers. -/
def md5Chunk (st : Nat × Nat × Nat × Nat) (chunk : List Nat) :
    Nat × Nat × Nat × Nat :=
  let (a0, b0, c0, d0) := st
  let (a, b, c, d) := (List.range 64).foldl (md5Step chunk) (a0, b0, c0, d0)
  (w32 (a0 + a), w32 (b0 + b), w32 (c0 + c), w32 (d0 + d))

/-- MD5 padding: `0x80`, zeros to 56 mod 64, then the bit length in 8 LE bytes. -/
def md5Pad (msg : List Nat) : List Nat :=
  let len := msg.length
  let bitLen := (8 * len) % 18446744073709551616
  let zeros := (119 - len % 64) % 64
  msg ++ 128 :: List.replicate zeros 0 ++
    [bitLen % 256, bitLen / 256 % 256, bitLen / 65536 % 256,
     bitLen / 16777216 % 256, bitLen / 4294967296 % 256,
     bitLen / 1099511627776 % 256, bitLen / 281474976710656 % 256,
     bitLen / 72057594037927936 % 256]

/-- Split a byte list into 64-byte chunks. -/
def toChunks (l : List Nat) : List (List Nat) :=
  (List.range ((l.length + 63) / 64)).map (fun i => (l.drop (64 * i)).take 64)

/-- Little-endian bytes of a 32-bit word. -/
def wordLE (w : Nat) : List Nat :=
  [w % 256, w / 256 % 256, w / 65536 % 256, w / 16777216 % 256]

/-- The 16-byte MD5 digest of a byte message. -/
def md5Digest (msg : List Nat) : List Nat :=
  let st := (toChunks (md5Pad msg)).foldl md5Chunk
    (0x67452301, 0xefcdab89, 0x98badcfe, 0x10325476)
  wordLE st.1 ++ wordLE st.2.1 ++ wordLE st.2.2.1 ++ wordLE st.2.2.2

/-- The sixteen lowercase hex digit characters. -/
def hexDigitChars : List Char := "0123456789abcdef".data

/-- Hex digit character for a value (defaulting inside the same alphabet). -/
def hexChar (n : Nat) : Char := hexDigitChars.getD n '0'

/-- Test for a lowercase hexadecimal digit. -/
def isHexDigit (c : Char) : Bool := hexDigitChars.contains c

/-- Render bytes as lowercase hex characters (Python `hexdigest()`). -/
def bytesToHex : List Nat → List Char
  | [] => []
  | b :: bs => hexChar (b / 16 % 16) :: hexChar (b % 16) :: bytesToHex bs

/-- Characters of `hashlib.md5(msg).hexdigest()`. -/
def md5HexChars (msg : List Nat) : List Char := bytesToHex (md5Digest msg)

/-- Embeds `GoTokyoEventScraper.generate_poi_id` / `TabelogScraper.generate_poi_id`:
`hashlib.md5(url.encode('utf-8')).hexdigest()[:12]`. -/
def generate_poi_id (url : String) : String :=
  ⟨(md5HexChars (utf8Bytes url)).take 12⟩

/-- The id assignment in `POINormalizationPipeline.process_item`:
`hashlib.md5((source_url or name).encode('utf-8')).hexdigest()[:12]`,
where Python `or` falls back to `name` when `source_url` is empty. -/
def pipelineAssignId (source_url name : String) : String :=
  ⟨(md5HexChars (utf8Bytes (if source_url = "" then name else source_url))).take 12⟩

/-! ## Price parsing (`TabelogScraper.parse_price`)

`re.findall(r'[¥￥,0-9]+', price_str)` collects the maximal runs of characters
from the class `{¥, ￥, ',', 0-9}`; each run is stripped of `¥`/`￥`/`,` and
converted with `int(...)`.  A run left empty by the stripping makes `int('')`
raise, and the surrounding bare `except` turns that into `None` for the whole
call. -/

/-- Membership in the regex character class `[¥￥,0-9]`. -/
def isPriceChar (c : Char) : Bool :=
  c = '¥' || c = '￥' || c = ',' || ('0' ≤ c && c ≤ '9')

/-- Accumulating worker for `priceRuns` (`acc` holds the current run reversed). -/
def priceRunsAux : List Char → List Char → List (List Char)
  | [], acc => if acc.isEmpty then [] else [acc.reverse]
  | c :: cs, acc =>
    if isPriceChar c then priceRunsAux cs (c :: acc)
    else if acc.isEmpty then priceRunsAux cs []
    else acc.reverse :: priceRunsAux cs []

/-- Embeds `re.findall(r'[¥￥,0-9]+', s)`: maximal runs of price-class characters. -/
def priceRuns (l : List Char) : List (List Char) := priceRunsAux l []

/-- Embeds `p.replace('¥','').replace('￥','').replace(',','')`. -/
def cleanRun (r : List Char) : List Char :=
  r.filter (fun c => !(c = '¥' || c = '￥' || c = ','))

/-- Value of a digit list (`int` on a nonempty all-digit string). -/
def digitsToNat (l : List Char) : Nat :=
  l.foldl (fun a c => 10 * a + (c.toNat - 48)) 0

/-- Embeds `int(cleaned run)`: `none` models the `ValueError` of `int('')`. -/
def runValue (r : List Char) : Option Nat :=
  if cleanRun r = [] then none else some (digitsToNat (cleanRun r))

/-- The `for p in prices` loop: running maximum, aborted by the first
`ValueError` (which the bare `except` turns into `None`). -/
def maxLoop : List (List Char) → Nat → Option Nat
  | [], m => some m
  | r :: rs, m =>
    match runValue r with
    | none => none
    | some v => maxLoop rs (if v > m then v else m)

/-- Embeds `TabelogScraper.parse_price`, returning the 1-4 tier or `none`. -/
def parse_price (s : String) : Option Nat :=
  if s.data = [] then none
  else
    let prices := priceRuns s.data
    if prices = [] then none
    else
      match maxLoop prices 0 with
      | none => none
      | some m =>
        if m = 0 then none
        else if m < 1000 then some 1
        else if m < 4000 then some 2
        else if m < 10000 then some 3
        else some 4

/-! ## Tag inference (`GoTokyoEventScraper.parse_event_card` lines 93-124, 144,
149, and the same rules in `GoTokyoEventsSpider.parse_event_card`) -/

/-- The ordered keyword rules of the `if`-chain at lines 104-115. -/
def tagRules : List (List String × String) :=
  [(["festival", "matsuri"], "Festival"),
   (["museum", "exhibition", "art"], "Exhibition"),
   (["temple", "shrine", "traditional"], "Traditional"),
   (["food", "market", "culinary"], "Food"),
   (["music", "concert", "performance"], "Music"),
   (["sakura", "cherry", "flower"], "Seasonal")]

/-- Embeds `f"{name} {description}".lower()`. -/
def textContent (name description : String) : String :=
  pyLower (name ++ " " ++ description)

/-- Explicit tag-markup handling: strip each candidate, keep the nonempty ones
shorter than 50 characters (lines 94-99). -/
def explicitTags (cands : List String) : List String :=
  (cands.map pyStrip).filter (fun t => t ≠ "" && t.length < 50)

/-- The keyword-rule pass (lines 102-115): each firing rule appends its tag. -/
def inferredTags (name description : String) : List String :=
  (tagRules.filter
    (fun r => r.1.any (fun w => strContains (textContent name description) w))).map
    (fun r => r.2)

/-- The `category_tags` list before the `["Event"]` fallback. -/
def preCategoryTags (cands : List String) (name description : String) :
    List String :=
  let ex := explicitTags cands
  if ex = [] then inferredTags name description else ex

/-- The situational second pass (lines 119-124). -/
def situationalTags (name description : String) : List String :=
  (if strContains (textContent name description) "family" then
    ["Family Friendly"] else []) ++
  (if ["night", "evening", "illumination"].any
      (fun w => strContains (textContent name description) w) then
    ["Nightlife"] else []) ++
  (if strContains (textContent name description) "free" then
    ["Free Entry"] else [])

/-- The `interest_tags` list before the `["Event"]` fallback (line 118 copy plus appends). -/
def preInterestTags (cands : List String) (name description : String) :
    List String :=
  preCategoryTags cands name description ++ situationalTags name description

/-- Final `category_tags` of the standalone scraper (line 144):
`list(set(category_tags)) if category_tags else ["Event"]`.  `set` collapses
duplicates; we canonicalize its arbitrary order with `dedup`. -/
def scraperCategoryTags (cands : List String) (name description : String) :
    List String :=
  let pre := preCategoryTags cands name description
  if pre = [] then ["Event"] else pre.dedup

/-- Final `interest_tags` of the standalone scraper (line 149). -/
def scraperInterestTags (cands : List String) (name description : String) :
    List String :=
  let pre := preInterestTags cands name description
  if pre = [] then ["Event"] else pre.dedup

/-! ## The Scrapy spider path (`GoTokyoEventsSpider.parse_event_card` +
`POIItemLoader`)

The spider computes the same tag list (falling back to `['Event']` itself,
line 293-294) and stores it with `loader.add_value('category_tags', ...)`.
`POIItemLoader.default_output_processor = TakeFirst()` then keeps only the
first non-empty collected value, and `POINormalizationPipeline` splits that
single string on `','`. -/

/-- Tag list the spider passes to the item loader (lines 277-296). -/
def spiderTagList (cands : List String) (name description : String) :
    List String :=
  let pre := preCategoryTags cands name description
  if pre = [] then ["Event"] else pre

/-- Embeds `itemloaders.processors.TakeFirst`: first value that is neither `None`
nor `''`. -/
def takeFirstProc (vals : List String) : Option String :=
  vals.find? (fun v => v ≠ "")

/-- Python `s.split(sep)` for a single-character separator. -/
def pySplitChar (sep : Char) : List Char → List (List Char)
  | [] => [[]]
  | c :: rest =>
    match pySplitChar sep rest with
    | [] => [[c]]
    | h :: t => if c = sep then [] :: h :: t else (c :: h) :: t

/-- The pipeline's `[tag.strip() for tag in tags.split(',') if tag.strip()]`. -/
def splitTags (s : String) : List String :=
  ((pySplitChar ',' s.data).map (fun l => pyStrip ⟨l⟩)).filter (fun t => t ≠ "")

/-- The `category_tags` value as it ends up in the spider-path output: loader
`TakeFirst`, then the normalization pipeline's string-to-list conversion. -/
def spiderFinalCategoryTags (cands : List String) (name description : String) :
    List String :=
  match takeFirstProc (spiderTagList cands name description) with
  | some s => splitTags s
  | none => []

/-! ## Best time of day -/

/-- Morning keyword group (line 132). -/
def morningWords : List String := ["morning", "am", "朝"]

/-- Afternoon keyword group (line 134). -/
def afternoonWords : List String := ["afternoon", "pm", "午後"]

/-- Evening keyword group (line 136). -/
def eveningWords : List String := ["evening", "night", "夜", "illumination"]

/-- Embeds `f"{name} {description} {event_date}".lower()`. -/
def timeText (name description event_date : String) : String :=
  pyLower (name ++ " " ++ description ++ " " ++ event_date)

/-- Test whether some keyword of `ws` occurs in the combined lowered text. -/
def timeGroupFires (ws : List String) (name description event_date : String) :
    Bool :=
  ws.any (fun w => strContains (timeText name description event_date) w)

/-- The `best_time` chain of `GoTokyoEventScraper.parse_event_card`
(lines 129-137; the Scrapy spider runs the same chain). -/
def bestTimeOfDay (name description event_date : String) : Option String :=
  if timeGroupFires morningWords name description event_date then some "morning"
  else if timeGroupFires afternoonWords name description event_date then
    some "afternoon"
  else if timeGroupFires eveningWords name description event_date then
    some "evening"
  else none

/-- Embeds `TabelogScraper.parse_restaurant_card` line 186:
`"night" if price_range and price_range > 2 else "afternoon"` (Python `and`
treats both `None` and `0` as falsy). -/
def tabelogBestTime (price_range : Option Nat) : String :=
  match price_range with
  | some p => if p > 2 then "night" else "afternoon"
  | none => "afternoon"

/-! ## Description synthesis -/

/-- Index of the last `'.'` in a character list (Python `rfind`, with `none`
for the `-1` case). -/
def lastDotIdx : List Char → Option Nat
  | [] => none
  | c :: rest =>
    match lastDotIdx rest with
    | some i => some (i + 1)
    | none => if c = '.' then some 0 else none

/-- The truncation step shared by `create_short_description` (limit 200,
boundary 100) and the spider's `clean_description` (limit 300, boundary 150):
cut at `maxLen`, back up to the last `'.'` if it lies beyond `minDot`, else
append `"..."`. -/
def truncateAt (maxLen minDot : Nat) (desc : List Char) : List Char :=
  if desc.length > maxLen then
    match lastDotIdx (desc.take maxLen) with
    | some i =>
      if i > minDot then (desc.take maxLen).take (i + 1)
      else desc.take maxLen ++ ['.', '.', '.']
    | none => desc.take maxLen ++ ['.', '.', '.']
  else desc

/-- The 200-character truncation step of
`GoTokyoEventScraper.create_short_description` (lines 213-221). -/
def truncateDesc (desc : List Char) : List Char := truncateAt 200 100 desc

/-- Embeds `GoTokyoEventScraper.create_short_description` (lines 210-227): truncate,
then append the event date when nonempty and not already contained. -/
def create_short_description (description event_date : String) : String :=
  if event_date ≠ "" &&
      !containsSub event_date.data (truncateDesc (pyStripList description.data)) then
    ⟨pyStripList (truncateDesc (pyStripList description.data) ++
      ' ' :: event_date.data)⟩
  else ⟨truncateDesc (pyStripList description.data)⟩

/-- Dropping a prefix never lengthens a list (used for termination below). -/
theorem dropWhile_length_le (p : Char → Bool) :
    ∀ l : List Char, (l.dropWhile p).length ≤ l.length := by
  intro l
  induction l with
  | nil => simp [List.dropWhile]
  | cons c rest ih =>
    by_cases h : p c
    · simp only [List.dropWhile, h]
      exact Nat.le_succ_of_le ih
    · simp [List.dropWhile, h]

/-- Worker for `collapseSpaces`; the flag records whether the previous
character was whitespace (so a run contributes a single `' '`). -/
def collapseSpacesAux : List Char → Bool → List Char
  | [], _ => []
  | c :: rest, inRun =>
    if isPySpace c then
      if inRun then collapseSpacesAux rest true
      else ' ' :: collapseSpacesAux rest true
    else c :: collapseSpacesAux rest false

/-- Collapse whitespace runs to single spaces (`re.sub(r'\s+', ' ', ...)`). -/
def collapseSpaces (l : List Char) : List Char := collapseSpacesAux l false

/-- Embeds `GoTokyoEventsSpider.clean_description` (lines 385-402): whitespace
normalization, then truncation at 300 with the sentence-boundary rule. -/
def clean_description (description : String) : String :=
  if description = "" then ""
  else ⟨truncateAt 300 150 (collapseSpaces (pyStripList description.data))⟩

/-! ## Coordinate extraction

Embeds the regex searches of `GoTokyoEventScraper.extract_coordinates` and
`TabelogScraper.get_lat_lon`.  The numeric captures are kept as the matched
character strings (the Python `float(...)` conversion is total on strings
matching `-?\d+\.\d+` and the claims do not depend on the numeric value). -/

/-- ASCII decimal digit test (regex `\d`). -/
def isDigitChar (c : Char) : Bool := '0' ≤ c && c ≤ '9'

/-- Match `-?\d+\.\d+` at the head of `l`; returns the matched characters and
the remainder.  Maximal munch coincides with regex backtracking here because
`\d` is disjoint from `.` and `,`. -/
def scanDecimal (l : List Char) : Option (List Char × List Char) :=
  let p : List Char × List Char :=
    match l with
    | '-' :: t => (['-'], t)
    | _ => ([], l)
  let d1 := p.2.takeWhile isDigitChar
  let r1 := p.2.dropWhile isDigitChar
  if d1 = [] then none
  else
    match r1 with
    | '.' :: r2 =>
      let d2 := r2.takeWhile isDigitChar
      let r3 := r2.dropWhile isDigitChar
      if d2 = [] then none else some (p.1 ++ d1 ++ '.' :: d2, r3)
    | _ => none

/-- Match a literal character sequence, returning the remainder. -/
def matchLit : List Char → List Char → Option (List Char)
  | [], l => some l
  | _ :: _, [] => none
  | c :: cs, x :: xs => if c = x then matchLit cs xs else none

/-- Match `[@,](-?\d+\.\d+),(-?\d+\.\d+)` anchored at the head. -/
def matchAtCoord (l : List Char) : Option (String × String) :=
  match l with
  | [] => none
  | c :: rest =>
    if c = '@' || c = ',' then
      match scanDecimal rest with
      | some (la, r1) =>
        match r1 with
        | ',' :: r2 =>
          match scanDecimal r2 with
          | some (lo, _) => some (⟨la⟩, ⟨lo⟩)
          | none => none
        | _ => none
      | none => none
    else none

/-- Embeds `re.search(r'[@,](-?\d+\.\d+),(-?\d+\.\d+)', ...)`: leftmost match. -/
def searchCoord : List Char → Option (String × String)
  | [] => none
  | c :: rest =>
    match matchAtCoord (c :: rest) with
    | some r => some r
    | none => searchCoord rest

/-- Match `key` (a literal such as `"lat":`) followed by `\s*` and a decimal,
anchored at the head; returns the captured number and the remainder. -/
def matchKeyNumAt (key : List Char) (l : List Char) :
    Option (List Char × List Char) :=
  match matchLit key l with
  | some r1 => scanDecimal (r1.dropWhile isPySpace)
  | none => none

/-- Search for `"lng":\s*(-?\d+\.\d+)` reachable by `.*?` (which does not
cross a newline: `re.DOTALL` is off in the source). -/
def searchLngSameLine (lngKey : List Char) : List Char → Option (List Char)
  | [] => none
  | c :: rest =>
    if c = '\n' then none
    else
      match matchKeyNumAt lngKey (c :: rest) with
      | some (num, _) => some num
      | none => searchLngSameLine lngKey rest

/-- Embeds `re.search(r'"lat":\s*(-?\d+\.\d+).*?"lng":\s*(-?\d+\.\d+)', ...)`. -/
def searchLatLng (latKey lngKey : List Char) :
    List Char → Option (String × String)
  | [] => none
  | c :: rest =>
    match matchKeyNumAt latKey (c :: rest) with
    | some (la, r1) =>
      match searchLngSameLine lngKey r1 with
      | some lo => some (⟨la⟩, ⟨lo⟩)
      | none => searchLatLng latKey lngKey rest
    | none => searchLatLng latKey lngKey rest

/-- The `coordinates` dict `{"lat": ..., "lon": ...}`. -/
structure Coords where
  lat : Option String
  lon : Option String
deriving DecidableEq

/-- Embeds `GoTokyoEventScraper.extract_coordinates` (lines 33-61): first a Google
Maps link match, then an embedded-script match, else `{None, None}` (also the
shape of the Scrapy spider's `extract_coordinates`). -/
def extract_coordinates (map_link_hrefs script_texts : List String) : Coords :=
  match map_link_hrefs.findSome? (fun h => searchCoord h.data) with
  | some (la, lo) => ⟨some la, some lo⟩
  | none =>
    match script_texts.findSome?
        (fun s => searchLatLng "\"lat\":".data "\"lng\":".data s.data) with
    | some (la, lo) => ⟨some la, some lo⟩
    | none => ⟨none, none⟩

/-- Match `["']word["']\s*:\s*(-?\d+\.\d+)` anchored at the head. -/
def matchQuotedKeyAt (word : List Char) (l : List Char) :
    Option (List Char × List Char) :=
  match l with
  | [] => none
  | q :: rest =>
    if q = '"' || q = '\'' then
      match matchLit word rest with
      | some (q2 :: r2) =>
        if q2 = '"' || q2 = '\'' then
          match r2.dropWhile isPySpace with
          | ':' :: r4 => scanDecimal (r4.dropWhile isPySpace)
          | _ => none
        else none
      | _ => none
    else none

/-- Leftmost search for the quoted-key-number pattern. -/
def searchQuotedKey (word : List Char) : List Char → Option (List Char)
  | [] => none
  | c :: rest =>
    match matchQuotedKeyAt word (c :: rest) with
    | some (num, _) => some num
    | none => searchQuotedKey word rest

/-- Strategy 1 of `TabelogScraper.get_lat_lon`: both `latitude` and
`longitude` patterns must match within the same script text. -/
def tabelogScriptCoord (s : String) : Option (String × String) :=
  match searchQuotedKey "latitude".data s.data,
      searchQuotedKey "longitude".data s.data with
  | some la, some lo => some (⟨la⟩, ⟨lo⟩)
  | _, _ => none

/-- Match `q=(-?\d+\.\d+),(-?\d+\.\d+)` anchored at the head. -/
def matchQEq (l : List Char) : Option (String × String) :=
  match matchLit "q=".data l with
  | some r1 =>
    match scanDecimal r1 with
    | some (la, r2) =>
      match r2 with
      | ',' :: r3 =>
        match scanDecimal r3 with
        | some (lo, _) => some (⟨la⟩, ⟨lo⟩)
        | none => none
      | _ => none
    | none => none
  | none => none

/-- Leftmost search for the `q=lat,lon` map-link pattern. -/
def searchQEq : List Char → Option (String × String)
  | [] => none
  | c :: rest =>
    match matchQEq (c :: rest) with
    | some r => some r
    | none => searchQEq rest

/-- The staged early returns of `TabelogScraper.get_lat_lon`: scripts first
(strategy 1), then the map link (strategy 2). -/
def get_lat_lon_opt (script_texts : List String) (map_link : Option String) :
    Option (String × String) :=
  match script_texts.findSome? tabelogScriptCoord with
  | some r => some r
  | none =>
    match map_link with
    | some href => searchQEq href.data
    | none => none

/-- Embeds `TabelogScraper.get_lat_lon` (lines 108-129): scripts first, then the map
link, else `{None, None}`. -/
def get_lat_lon (script_texts : List String) (map_link : Option String) :
    Coords :=
  match get_lat_lon_opt script_texts map_link with
  | some (la, lo) => ⟨some la, some lo⟩
  | none => ⟨none, none⟩

/-- Both coordinates present or both absent (the pairing invariant). -/
def pairedCoords (c : Coords) : Bool := c.lat.isSome == c.lon.isSome

/-! ## The Scrapy item pipelines

`settings.py` runs `ValidationPipeline` at priority 200 *before*
`POINormalizationPipeline` at 300 (then `FieldOrderPipeline`, which only
reorders dict keys and is the identity on this typed record, and the JSON
exporter).  `last_updated_ts` (set to `datetime.now()`) is the one field not
modelled: it is wall-clock I/O and no claim depends on it. -/

/-- A tag field can be absent, a raw string, or a list (Scrapy items are
duck-typed dicts). -/
inductive TagsVal
  | missing
  | strVal (s : String)
  | listVal (l : List String)
deriving DecidableEq

/-- A Scrapy `POIItem`: every field optional, as in an item dict. -/
structure Item where
  id : Option String := none
  name : Option String := none
  type : Option String := none
  category_tags : TagsVal := .missing
  interest_tags : TagsVal := .missing
  neighborhood : Option String := none
  price_range : Option Nat := none
  halal : Option String := none
  cuisine : Option (List String) := none
  coordinates : Option Coords := none
  typical_duration_minutes : Option Nat := none
  best_time_of_day : Option String := none
  short_description : Option String := none
  source_url : Option String := none
deriving DecidableEq

/-- Python truthiness of an optional string field (`not adapter.get(f)`). -/
def truthyStr : Option String → Bool
  | none => false
  | some s => s ≠ ""

/-- Python truthiness of an optional number field (`0` is falsy). -/
def truthyNat : Option Nat → Bool
  | none => false
  | some n => n ≠ 0

/-- Python truthiness of an optional list field (`[]` is falsy). -/
def truthyList : Option (List String) → Bool
  | none => false
  | some l => l ≠ []

/-- Embeds `ValidationPipeline.process_item` (lines 79-95): require truthy `id`,
`name`, `type`, then a stripped name of length at least 3; `none` models the
dropped item. -/
def validationProcessItem (it : Item) : Option Item :=
  if !truthyStr it.id then none
  else if !truthyStr it.name then none
  else if !truthyStr it.type then none
  else if (pyStrip (it.name.getD "")).length < 3 then none
  else some it

/-- The four legal `type` values. -/
def typeEnum : List String := ["attraction", "restaurant", "shop", "event_venue"]

/-- Lines 27-29: `adapter.get('type', '').lower().strip()` checked against the
enum; unrecognized values are replaced by `'event_venue'`, recognized values
keep their original spelling. -/
def normalizeType (t : Option String) : Option String :=
  if typeEnum.contains (pyStrip (pyLower (t.getD ""))) then t
  else some "event_venue"

/-- Lines 32-37: a string tag field is split on `','`; a list is kept; an
absent field stays absent (the default `[]` is already a list, so nothing is
written back). -/
def cleanTagsField : TagsVal → TagsVal
  | .strVal s => .listVal (splitTags s)
  | .listVal l => .listVal l
  | .missing => .missing

/-- Embeds `POINormalizationPipeline.process_item` (lines 17-71). -/
def poiNormalizationProcessItem (it : Item) : Item :=
  let id' := if truthyStr it.id then it.id
    else some (pipelineAssignId (it.source_url.getD "") (it.name.getD "unnamed"))
  let ty' := normalizeType it.type
  let cat' := cleanTagsField it.category_tags
  let int' := cleanTagsField it.interest_tags
  let cuisine' := if truthyList it.cuisine then it.cuisine else none
  let neigh' := if truthyStr it.neighborhood then it.neighborhood
    else some "Tokyo"
  let halal' := if truthyStr it.halal then it.halal else some "unknown"
  let price' := if truthyNat it.price_range then it.price_range else none
  let coords' :=
    match it.coordinates with
    | none => some (⟨none, none⟩ : Coords)
    | some c => some c
  let catList : List String :=
    match cat' with
    | .listVal l => l
    | _ => []
  let dur' := if truthyNat it.typical_duration_minutes then
      it.typical_duration_minutes
    else some (if catList.any (fun tag => strContains (pyLower tag) "festival")
      then 180 else 90)
  let btod' := if truthyStr it.best_time_of_day then it.best_time_of_day
    else none
  { it with
    id := id'
    type := ty'
    category_tags := cat'
    interest_tags := int'
    cuisine := cuisine'
    neighborhood := neigh'
    halal := halal'
    price_range := price'
    coordinates := coords'
    typical_duration_minutes := dur'
    best_time_of_day := btod' }

/-- The full item pipeline in the `settings.py` order: validation (200), then
normalization (300); `FieldOrderPipeline` is the identity on typed records. -/
def processItem (it : Item) : Option Item :=
  (validationProcessItem it).map poiNormalizationProcessItem

/-- A batch of items through the pipeline; dropped items vanish. -/
def processBatch (l : List Item) : List Item := l.filterMap processItem

/-! ## Batch deduplication (`GoTokyoEventScraper.scrape_all_events`) -/

/-- The per-event fields the dedup loop inspects. -/
structure Ev where
  name : String
  source_url : String
deriving DecidableEq

/-- Line 310 denylist of generic placeholder names. -/
def denylistNames : List String := ["More details here", "Beyond Tokyo"]

/-- Line 311 generic landing-page URL suffixes. -/
def genericSuffixes : List String :=
  ["/spot/index.html", "/event/index.html",
   "/tourists/spot/suburbs/fromtokyo/index.html"]

/-- The acceptance condition of lines 308-311. -/
def acceptEvent (seen : List String) (e : Ev) : Bool :=
  !seen.contains e.source_url && e.name.length > 5 &&
  !denylistNames.contains e.name &&
  !genericSuffixes.any (fun suf => isSuffixList suf.data e.source_url.data)

/-- The inner `for event in page_events` loop (lines 307-314), threading the
accepted list and the `seen_urls` set. -/
def dedupPage : List Ev → List Ev × List String → List Ev × List String
  | [], st => st
  | e :: es, (evs, seen) =>
    if acceptEvent seen e then dedupPage es (evs ++ [e], seen ++ [e.source_url])
    else dedupPage es (evs, seen)

/-- The outer `for url in urls_to_scrape` loop (lines 303-316). -/
def dedupPages : List (List Ev) → List Ev × List String → List Ev × List String
  | [], st => st
  | p :: ps, st => dedupPages ps (dedupPage p st)

/-- Embeds the `scrape_all_events` batch assembly: the deduplicated main loop, then the
pagination block (lines 337-341) which `extend`s the result with additional
pages' events with no dedup check. -/
def scrape_all_events (mainPages additionalPages : List (List Ev)) : List Ev :=
  (dedupPages mainPages ([], [])).1 ++ additionalPages.flatten

set_option maxRecDepth 100000

/-- RFC 1321 test vector: the MD5 of the empty message. -/
theorem md5_vector_empty :
    md5HexChars (utf8Bytes "") = "d41d8cd98f00b204e9800998ecf8427e".data := by
  decide

/-- RFC 1321 test vector: the MD5 of `"abc"`. -/
theorem md5_vector_abc :
    md5HexChars (utf8Bytes "abc") = "900150983cd24fb0d6963f7d28e17f72".data := by
  decide

/-! ## Supporting lemmas -/

/-- An MD5 digest always has exactly 16 bytes. -/
theorem md5Digest_length (msg : List Nat) : (md5Digest msg).length = 16 := by
  simp [md5Digest, wordLE]

/-- Hex rendering doubles the byte count. -/
theorem bytesToHex_length : ∀ l : List Nat, (bytesToHex l).length = 2 * l.length
  | [] => rfl
  | _ :: bs => by simp [bytesToHex, bytesToHex_length bs]; omega

/-- A hexdigest always has 32 characters. -/
theorem md5HexChars_length (msg : List Nat) : (md5HexChars msg).length = 32 := by
  simp [md5HexChars, bytesToHex_length, md5Digest_length]

/-- Lookup with `getD` returns the default or a member of the list. -/
theorem getD_self_or_mem (d : Char) :
    ∀ (l : List Char) (n : Nat), l.getD n d = d ∨ l.getD n d ∈ l := by
  intro l
  induction l with
  | nil => intro n; left; rfl
  | cons a t ih =>
    intro n
    cases n with
    | zero => right; simp [List.getD]
    | succ m =>
      rcases ih m with h | h
      · left; simpa [List.getD] using h
      · right; simp [List.getD] at h ⊢; right; exact h

/-- Function `hexChar` always produces a hex digit character. -/
theorem isHexDigit_hexChar (n : Nat) : isHexDigit (hexChar n) = true := by
  have h := getD_self_or_mem '0' hexDigitChars n
  show isHexDigit (hexDigitChars.getD n '0') = true
  rcases h with h | h
  · rw [h]; decide
  · simp only [isHexDigit]
    simpa using h

/-- Every character of a hex rendering is a hex digit. -/
theorem bytesToHex_all_hex : ∀ l : List Nat, (bytesToHex l).all isHexDigit = true
  | [] => rfl
  | b :: bs => by
    simp [bytesToHex, isHexDigit_hexChar, bytesToHex_all_hex bs]

/-! ## C1 -/

/-- Claim C1: The assigned POI id equals the first 12 hex characters of the MD5
digest of the UTF-8 bytes of the source URL — or of the fallback name when the
URL is empty (`source_url or name`) — hence it is always a 12-hex-character
string, and the id is a pure function of the URL (same URL, same id on every
call).  Covers `generate_poi_id` of both standalone scrapers and the id
assignment of `POINormalizationPipeline.process_item`. -/
theorem C1_identity_assignment (u n : String) (r : Item) :
    pipelineAssignId u n = generate_poi_id (if u = "" then n else u)
    ∧ (pipelineAssignId u n).length = 12
    ∧ (pipelineAssignId u n).data.all isHexDigit = true
    ∧ (generate_poi_id u).length = 12
    ∧ (generate_poi_id u).data.all isHexDigit = true
    ∧ (poiNormalizationProcessItem { r with id := none }).id =
        some (pipelineAssignId (r.source_url.getD "") (r.name.getD "unnamed")) := by
  have hlen : ∀ s : String, (generate_poi_id s).length = 12 := by
    intro s
    show ((md5HexChars (utf8Bytes s)).take 12).length = 12
    rw [List.length_take, md5HexChars_length]
    decide
  have hhex : ∀ s : String, (generate_poi_id s).data.all isHexDigit = true := by
    intro s
    apply List.all_eq_true.mpr
    intro c hc
    have hsub : c ∈ md5HexChars (utf8Bytes s) := List.take_subset 12 _ hc
    exact List.all_eq_true.mp (bytesToHex_all_hex (md5Digest (utf8Bytes s))) c hsub
  refine ⟨rfl, ?_, ?_, hlen u, hhex u, rfl⟩
  · show (generate_poi_id (if u = "" then n else u)).length = 12
    exact hlen _
  · show (generate_poi_id (if u = "" then n else u)).data.all isHexDigit = true
    exact hhex _

/-! ## C2 -/

/-- The "maximum numeric value found" of the spec: the running maximum the
`for p in prices` loop computes over the cleaned run values. -/
def maxRunValue (rs : List (List Char)) : Nat :=
  rs.foldl (fun m r => max m (digitsToNat (cleanRun r))) 0

/-- The 4-tier mapping of the spec (`None` for a zero value). -/
def priceTier (m : Nat) : Option Nat :=
  if m = 0 then none
  else if m < 1000 then some 1
  else if m < 4000 then some 2
  else if m < 10000 then some 3
  else some 4

/-- When every run has at least one digit, the loop completes and returns the
running maximum. -/
theorem maxLoop_some :
    ∀ (rs : List (List Char)), (∀ r ∈ rs, cleanRun r ≠ []) →
      ∀ a, maxLoop rs a =
        some (rs.foldl (fun m r => max m (digitsToNat (cleanRun r))) a) := by
  intro rs
  induction rs with
  | nil => intro _ a; rfl
  | cons r rest ih =>
    intro h a
    have hr : cleanRun r ≠ [] := h r (List.mem_cons_self r rest)
    have hmax : (if digitsToNat (cleanRun r) > a then digitsToNat (cleanRun r)
        else a) = max a (digitsToNat (cleanRun r)) := by
      split <;> omega
    simp only [maxLoop, runValue, if_neg hr, hmax]
    exact ih (fun x hx => h x (List.mem_cons_of_mem r hx)) _

/-- A digitless run anywhere in the list aborts the loop (`int('')` raises,
the bare `except` returns `None`). -/
theorem maxLoop_none :
    ∀ (rs : List (List Char)) (r : List Char), r ∈ rs → cleanRun r = [] →
      ∀ a, maxLoop rs a = none := by
  intro rs
  induction rs with
  | nil => intro r hr; exact absurd hr (List.not_mem_nil r)
  | cons x rest ih =>
    intro r hr he a
    rcases List.mem_cons.mp hr with h | h
    · subst h
      simp [maxLoop, runValue, he]
    · simp only [maxLoop, runValue]
      split
      · rfl
      · exact ih r h he _

/-- The initial accumulator never exceeds the fold of maxima. -/
theorem foldl_max_le_init (f : List Char → Nat) :
    ∀ (rs : List (List Char)) (a : Nat),
      a ≤ rs.foldl (fun m r => max m (f r)) a := by
  intro rs
  induction rs with
  | nil => intro a; exact Nat.le_refl a
  | cons r rest ih =>
    intro a
    exact Nat.le_trans (Nat.le_max_left a (f r)) (ih (max a (f r)))

/-- Every element's value is bounded by the fold of maxima. -/
theorem foldl_max_mem_le (f : List Char → Nat) :
    ∀ (rs : List (List Char)) (a : Nat) (r : List Char), r ∈ rs →
      f r ≤ rs.foldl (fun m r => max m (f r)) a := by
  intro rs
  induction rs with
  | nil => intro a r hr; exact absurd hr (List.not_mem_nil r)
  | cons x rest ih =>
    intro a r hr
    rcases List.mem_cons.mp hr with h | h
    · subst h
      exact Nat.le_trans (Nat.le_max_right a (f r))
        (foldl_max_le_init f rest (max a (f r)))
    · exact ih (max a (f x)) r h

/-- The fold of maxima is the initial value or attained by some element. -/
theorem foldl_max_attained (f : List Char → Nat) :
    ∀ (rs : List (List Char)) (a : Nat),
      rs.foldl (fun m r => max m (f r)) a = a
      ∨ ∃ r ∈ rs, rs.foldl (fun m r => max m (f r)) a = f r := by
  intro rs
  induction rs with
  | nil => intro a; left; rfl
  | cons x rest ih =>
    intro a
    rcases ih (max a (f x)) with h | ⟨r, hr, h⟩
    · rcases Nat.le_total a (f x) with hm | hm
      · right
        refine ⟨x, List.mem_cons_self x rest, ?_⟩
        simp only [List.foldl]
        rw [Nat.max_eq_right hm] at h ⊢
        exact h
      · left
        simp only [List.foldl]
        rw [Nat.max_eq_left hm] at h ⊢
        exact h
    · right
      exact ⟨r, List.mem_cons_of_mem x hr, h⟩

/-- Claim C2 counterexample: `"¥ 999"` contains the numeric substring `"999"`
(nonzero maximum 999), yet `parse_price` returns `None` instead of tier 1:
the standalone run `"¥"` cleans to the empty string and `int('')` raises,
which the bare `except` turns into `None`. -/
theorem C2_price_counterexample :
    priceRuns "¥ 999".data = [['¥'], ['9', '9', '9']]
    ∧ digitsToNat (cleanRun ['9', '9', '9']) = 999
    ∧ parse_price "¥ 999" = none
    ∧ parse_price "999" = some 1 := by
  decide

/-- Claim C2 amended: The six tier boundary examples hold; no numeric run or a
zero maximum yields `None`; and *provided every matched run contains a digit*,
`parse_price` returns the tier of the maximum run value (the maximum really
bounds, and is attained by, the run values).  The amendment: a matched run
with no digit (e.g. a bare `¥`) aborts the whole parse to `None`. -/
theorem C2_price_tiers_amended (s : String) :
    (priceRuns s.data = [] → parse_price s = none)
    ∧ (∀ r ∈ priceRuns s.data, cleanRun r = [] → parse_price s = none)
    ∧ ((∀ r ∈ priceRuns s.data, cleanRun r ≠ []) → priceRuns s.data ≠ [] →
        parse_price s = priceTier (maxRunValue (priceRuns s.data)))
    ∧ (∀ r ∈ priceRuns s.data,
        digitsToNat (cleanRun r) ≤ maxRunValue (priceRuns s.data))
    ∧ (maxRunValue (priceRuns s.data) = 0
       ∨ ∃ r ∈ priceRuns s.data,
           digitsToNat (cleanRun r) = maxRunValue (priceRuns s.data))
    ∧ parse_price "999" = some 1 ∧ parse_price "1,000" = some 2
    ∧ parse_price "3,999" = some 2 ∧ parse_price "4,000" = some 3
    ∧ parse_price "9,999" = some 3 ∧ parse_price "10,000" = some 4 := by
  refine ⟨?_, ?_, ?_, ?_, ?_, by decide, by decide, by decide, by decide,
    by decide, by decide⟩
  · intro h
    unfold parse_price
    split
    · rfl
    · simp [h]
  · intro r hr he
    unfold parse_price
    split
    · rfl
    · have : maxLoop (priceRuns s.data) 0 = none := maxLoop_none _ r hr he 0
      simp only [this]
      split
      · rfl
      · rfl
  · intro hall hne
    unfold parse_price
    split
    · next hempty =>
      exfalso
      apply hne
      rw [hempty]
      rfl
    · have : maxLoop (priceRuns s.data) 0 =
          some (maxRunValue (priceRuns s.data)) := maxLoop_some _ hall 0
      simp only [if_neg hne, this, priceTier]
  · intro r hr
    show digitsToNat (cleanRun r) ≤ (priceRuns s.data).foldl
      (fun m r => max m (digitsToNat (cleanRun r))) 0
    exact foldl_max_mem_le (fun r => digitsToNat (cleanRun r)) _ 0 r hr
  · rcases foldl_max_attained (fun r => digitsToNat (cleanRun r))
        (priceRuns s.data) 0 with h | ⟨r, hr, h⟩
    · left; exact h
    · right; exact ⟨r, hr, h.symm⟩

/-- Claim C2 witness: The amended general rule applied to the concrete input
`"1,000 500"`, whose two runs both contain digits. -/
theorem C2_price_witness :
    (∀ r ∈ priceRuns "1,000 500".data, cleanRun r ≠ [])
    ∧ priceRuns "1,000 500".data ≠ []
    ∧ parse_price "1,000 500" =
        priceTier (maxRunValue (priceRuns "1,000 500".data))
    ∧ parse_price "1,000 500" = some 2 :=
  ⟨by decide, by decide,
   (C2_price_tiers_amended "1,000 500").2.2.1 (by decide) (by decide),
   by decide⟩

/-! ## C3 -/

/-- A field is Python-falsy exactly when it is absent or the empty string. -/
theorem truthyStr_eq_false (o : Option String) :
    truthyStr o = false ↔ o = none ∨ o = some "" := by
  cases o with
  | none => simp [truthyStr]
  | some s => simp [truthyStr]

/-- Claim C3: A record whose `id`, `name`, or `type` is missing or empty, or
whose name has trimmed length below 3, is dropped by `ValidationPipeline`
(priority 200, before normalization at 300) and is absent from the batch
output, while the surrounding records are processed unchanged. -/
theorem C3_required_field_rejection (it : Item) (pre post : List Item)
    (h : it.id = none ∨ it.id = some "" ∨ it.name = none ∨ it.name = some ""
       ∨ it.type = none ∨ it.type = some ""
       ∨ (pyStrip (it.name.getD "")).length < 3) :
    processItem it = none
    ∧ processBatch (pre ++ it :: post) = processBatch pre ++ processBatch post := by
  have hv : validationProcessItem it = none := by
    unfold validationProcessItem
    split
    · rfl
    next h1 =>
      split
      · rfl
      next h2 =>
        split
        · rfl
        next h3 =>
          split
          · rfl
          next h4 =>
            exfalso
            rcases h with h | h | h | h | h | h | h
            · simp [h, truthyStr] at h1
            · simp [h, truthyStr] at h1
            · simp [h, truthyStr] at h2
            · simp [h, truthyStr] at h2
            · simp [h, truthyStr] at h3
            · simp [h, truthyStr] at h3
            · exact h4 h
  have hp : processItem it = none := by
    simp [processItem, hv]
  refine ⟨hp, ?_⟩
  simp [processBatch, List.filterMap_append, List.filterMap_cons, hp]

/-- A concrete record with a 2-character name. -/
def itemShortName : Item :=
  { id := some "abc123def456", name := some "ab", type := some "event_venue" }

/-- A concrete record passing all validation checks. -/
def itemGood : Item :=
  { id := some "abc123def456", name := some "Sakura Festival",
    type := some "event_venue" }

/-- Claim C3 witness: The rejection theorem applied to a concrete short-named
record sitting between two valid records. -/
theorem C3_required_field_rejection_witness :
    (itemShortName.id = none ∨ itemShortName.id = some ""
       ∨ itemShortName.name = none ∨ itemShortName.name = some ""
       ∨ itemShortName.type = none ∨ itemShortName.type = some ""
       ∨ (pyStrip (itemShortName.name.getD "")).length < 3)
    ∧ processItem itemShortName = none
    ∧ processBatch ([itemGood] ++ itemShortName :: [itemGood]) =
        processBatch [itemGood] ++ processBatch [itemGood] :=
  ⟨by decide,
   (C3_required_field_rejection itemShortName [itemGood] [itemGood] (by decide)).1,
   (C3_required_field_rejection itemShortName [itemGood] [itemGood] (by decide)).2⟩

/-! ## C4 -/

/-- Claim C4: Coordinates are never one-sided: the gotokyo extractor (map-link
match, embedded-script match, default), the tabelog extractor, and the
pipeline's default fill each produce `lat`/`lon` together or not at all. -/
theorem C4_coordinate_pairing (links scripts tScripts : List String)
    (tLink : Option String) (it : Item) :
    pairedCoords (extract_coordinates links scripts) = true
    ∧ pairedCoords (get_lat_lon tScripts tLink) = true
    ∧ (poiNormalizationProcessItem { it with coordinates := none }).coordinates =
        some ⟨none, none⟩
    ∧ pairedCoords ⟨none, none⟩ = true := by
  refine ⟨?_, ?_, rfl, rfl⟩
  · unfold extract_coordinates
    cases hl : links.findSome? (fun h => searchCoord h.data) with
    | none =>
      cases hs : scripts.findSome?
          (fun s => searchLatLng "\"lat\":".data "\"lng\":".data s.data) with
      | none => rfl
      | some p => cases p; rfl
    | some p => cases p; rfl
  · unfold get_lat_lon
    cases hq : get_lat_lon_opt tScripts tLink with
    | none => rfl
    | some p => cases p; rfl

/-! ## C5 -/

/-- Each of the six rule tags is nonempty, comma-free, and survives the
pipeline's split untouched. -/
theorem ruleTag_split : ∀ t ∈ tagRules.map Prod.snd, t ≠ "" ∧ splitTags t = [t] := by
  decide

/-- Inferred tags all come from the rule table's tag column. -/
theorem inferredTags_subset_ruleTags (name description : String) :
    inferredTags name description ⊆ tagRules.map Prod.snd := by
  unfold inferredTags
  exact List.map_subset _ (List.filter_subset' tagRules)

/-- Claim C5 counterexample: For text containing both `sakura` and `festival`,
the keyword pass computes `["Festival", "Seasonal"]`, but in the Scrapy spider
path the item loader's `TakeFirst` output processor keeps only the first tag:
the emitted `category_tags` is `["Festival"]` and does not contain
`"Seasonal"`. -/
theorem C5_tag_inference_counterexample :
    strContains (textContent "sakura festival" "") "sakura" = true
    ∧ strContains (textContent "sakura festival" "") "festival" = true
    ∧ inferredTags "sakura festival" "" = ["Festival", "Seasonal"]
    ∧ spiderFinalCategoryTags [] "sakura festival" "" = ["Festival"]
    ∧ "Seasonal" ∉ spiderFinalCategoryTags [] "sakura festival" "" := by
  decide

/-- Claim C5 amended: In the standalone scraper every firing keyword rule
contributes its tag to `category_tags` (duplicates collapsed), and zero firing
rules yield the sentinel `["Event"]` — in both paths.  In the Scrapy spider
path, however, `POIItemLoader`'s `TakeFirst` output processor keeps only the
*first* tag of the computed list. -/
theorem C5_tag_inference_amended (name description : String) :
    (∀ kws tag, (kws, tag) ∈ tagRules →
       kws.any (fun w => strContains (textContent name description) w) = true →
       tag ∈ scraperCategoryTags [] name description)
    ∧ (inferredTags name description = [] →
       scraperCategoryTags [] name description = ["Event"]
       ∧ spiderFinalCategoryTags [] name description = ["Event"])
    ∧ (∀ t ts, inferredTags name description = t :: ts →
       spiderFinalCategoryTags [] name description = [t]) := by
  have hpre : preCategoryTags [] name description = inferredTags name description := by
    rfl
  refine ⟨?_, ?_, ?_⟩
  · intro kws tag hmem hfire
    have hin : tag ∈ inferredTags name description := by
      unfold inferredTags
      exact List.mem_map.mpr ⟨(kws, tag), List.mem_filter.mpr ⟨hmem, by simpa using hfire⟩, rfl⟩
    have hne : preCategoryTags [] name description ≠ [] := by
      rw [hpre]
      exact List.ne_nil_of_mem hin
    unfold scraperCategoryTags
    rw [if_neg hne, hpre]
    exact List.mem_dedup.mpr hin
  · intro hinf
    have hp : preCategoryTags [] name description = [] := by rw [hpre, hinf]
    constructor
    · unfold scraperCategoryTags
      rw [if_pos hp]
    · unfold spiderFinalCategoryTags spiderTagList
      rw [if_pos hp]
      decide
  · intro t ts hinf
    have ht : t ∈ tagRules.map Prod.snd := by
      apply inferredTags_subset_ruleTags name description
      rw [hinf]
      exact List.mem_cons_self t ts
    obtain ⟨htne, htsplit⟩ := ruleTag_split t ht
    have hp : preCategoryTags [] name description = t :: ts := by rw [hpre, hinf]
    unfold spiderFinalCategoryTags spiderTagList
    rw [hp, if_neg (by simp)]
    have : takeFirstProc (t :: ts) = some t := by
      unfold takeFirstProc
      simp [List.find?, htne]
    rw [this]
    show splitTags t = [t]
    exact htsplit

/-- Claim C5 witness: The amended statement applied to the `sakura festival`
input: the `Festival` rule fires and its tag is in the scraper's output, while
the spider path keeps only the head `"Festival"`. -/
theorem C5_tag_inference_witness :
    (["festival", "matsuri"].any
       (fun w => strContains (textContent "sakura festival" "") w)) = true
    ∧ "Festival" ∈ scraperCategoryTags [] "sakura festival" ""
    ∧ spiderFinalCategoryTags [] "sakura festival" "" = ["Festival"] :=
  ⟨by decide,
   (C5_tag_inference_amended "sakura festival" "").1 ["festival", "matsuri"]
     "Festival" (by decide) (by decide),
   (C5_tag_inference_amended "sakura festival" "").2.2 "Festival" ["Seasonal"]
     (by decide)⟩

/-! ## C6 -/

/-- Claim C6 counterexample: For the name `"night walk tour"` no keyword rule
fires, so the scraper's `category_tags` falls back to the sentinel
`["Event"]`; but `interest_tags` was copied *before* that fallback and got
the situational `"Nightlife"` tag, so it is `["Nightlife"]` and does not
contain `"Event"` — the superset invariant fails. -/
theorem C6_interest_superset_counterexample :
    scraperCategoryTags [] "night walk tour" "" = ["Event"]
    ∧ scraperInterestTags [] "night walk tour" "" = ["Nightlife"]
    ∧ "Event" ∉ scraperInterestTags [] "night walk tour" "" := by
  decide

/-- Claim C6 amended: `interest_tags ⊇ category_tags` holds whenever at least
one category tag was found before the fallback; and when no situational tag
fires the two final tag sets coincide.  The invariant fails only in the
remaining case: zero category tags plus a firing situational tag, where
`category_tags = ["Event"]` but `interest_tags` omits the sentinel. -/
theorem C6_interest_superset_amended (cands : List String)
    (name description : String) :
    (preCategoryTags cands name description ≠ [] →
       ∀ t, t ∈ scraperCategoryTags cands name description →
         t ∈ scraperInterestTags cands name description)
    ∧ (situationalTags name description = [] →
       scraperInterestTags cands name description =
         scraperCategoryTags cands name description) := by
  constructor
  · intro hpre t ht
    have h1 : t ∈ preCategoryTags cands name description := by
      unfold scraperCategoryTags at ht
      rw [if_neg hpre] at ht
      exact List.dedup_subset _ ht
    have h2 : t ∈ preInterestTags cands name description :=
      List.mem_append_left _ h1
    have hne : preInterestTags cands name description ≠ [] :=
      List.ne_nil_of_mem h2
    unfold scraperInterestTags
    rw [if_neg hne]
    exact List.mem_dedup.mpr h2
  · intro hsit
    unfold scraperInterestTags scraperCategoryTags preInterestTags
    rw [hsit, List.append_nil]

/-- Claim C6 witness: The amended statement at concrete inputs: with a firing
rule (`"grand festival"`) the superset direction holds; with no situational
tags (`"quiet stroll"`) the two sets are equal. -/
theorem C6_interest_superset_witness :
    (preCategoryTags [] "grand festival" "" ≠ []
     ∧ "Festival" ∈ scraperInterestTags [] "grand festival" "")
    ∧ (situationalTags "quiet stroll" "" = []
       ∧ scraperInterestTags [] "quiet stroll" "" =
           scraperCategoryTags [] "quiet stroll" "") :=
  ⟨⟨by decide,
    (C6_interest_superset_amended [] "grand festival" "").1 (by decide)
      "Festival" (by decide)⟩,
   ⟨by decide, (C6_interest_superset_amended [] "quiet stroll" "").2 (by decide)⟩⟩

/-! ## C7 -/

/-- Claim C7 counterexample: A tabelog restaurant record with no price signal
and no temporal keyword anywhere in its text still gets
`best_time_of_day = "afternoon"` (line 186 derives it from the price tier,
not from a keyword scan), contradicting "null whenever no keyword of any
group matches". -/
theorem C7_best_time_counterexample :
    tabelogBestTime none = "afternoon"
    ∧ timeGroupFires morningWords "Sushi Zen" "" "" = false
    ∧ timeGroupFires afternoonWords "Sushi Zen" "" "" = false
    ∧ timeGroupFires eveningWords "Sushi Zen" "" "" = false := by
  decide

/-- Claim C7 amended: For the event scrapers, `best_time_of_day` follows the
morning-afternoon-evening priority scan (including the 朝/午後/夜 tokens) and
is null when no group matches.  For tabelog restaurant records it is instead
derived from the price tier: `"night"` for tiers above 2, else `"afternoon"`,
never null. -/
theorem C7_best_time_amended (name description event_date : String) :
    (timeGroupFires morningWords name description event_date = true →
       bestTimeOfDay name description event_date = some "morning")
    ∧ (timeGroupFires morningWords name description event_date = false →
       timeGroupFires afternoonWords name description event_date = true →
       bestTimeOfDay name description event_date = some "afternoon")
    ∧ (timeGroupFires morningWords name description event_date = false →
       timeGroupFires afternoonWords name description event_date = false →
       timeGroupFires eveningWords name description event_date = true →
       bestTimeOfDay name description event_date = some "evening")
    ∧ (timeGroupFires morningWords name description event_date = false →
       timeGroupFires afternoonWords name description event_date = false →
       timeGroupFires eveningWords name description event_date = false →
       bestTimeOfDay name description event_date = none)
    ∧ tabelogBestTime none = "afternoon"
    ∧ (∀ p, p ≤ 2 → tabelogBestTime (some p) = "afternoon")
    ∧ (∀ p, 2 < p → tabelogBestTime (some p) = "night") := by
  refine ⟨?_, ?_, ?_, ?_, rfl, ?_, ?_⟩
  · intro h1; simp [bestTimeOfDay, h1]
  · intro h1 h2; simp [bestTimeOfDay, h1, h2]
  · intro h1 h2 h3; simp [bestTimeOfDay, h1, h2, h3]
  · intro h1 h2 h3; simp [bestTimeOfDay, h1, h2, h3]
  · intro p hp
    show (if p > 2 then "night" else "afternoon") = "afternoon"
    rw [if_neg (by omega)]
  · intro p hp
    show (if p > 2 then "night" else "afternoon") = "night"
    rw [if_pos (by omega)]

/-- Claim C7 witness: The amended statement at concrete inputs: a morning
keyword wins, a keyword-free event text gives null, and a tier-3 restaurant
gives `"night"`. -/
theorem C7_best_time_witness :
    bestTimeOfDay "Morning Market" "" "" = some "morning"
    ∧ bestTimeOfDay "Quiet Stroll" "" "" = none
    ∧ tabelogBestTime (some 3) = "night" :=
  ⟨(C7_best_time_amended "Morning Market" "" "").1 (by decide),
   (C7_best_time_amended "Quiet Stroll" "" "").2.2.2.1 (by decide) (by decide)
     (by decide),
   (C7_best_time_amended "x" "" "").2.2.2.2.2.2 3 (by decide)⟩

/-! ## C8 -/

/-- Stripping never lengthens a string. -/
theorem pyStripList_length_le (l : List Char) :
    (pyStripList l).length ≤ l.length := by
  unfold pyStripList
  rw [List.length_reverse]
  calc ((l.dropWhile isPySpace).reverse.dropWhile isPySpace).length
      ≤ (l.dropWhile isPySpace).reverse.length :=
        dropWhile_length_le isPySpace _
    _ = (l.dropWhile isPySpace).length := List.length_reverse _
    _ ≤ l.length := dropWhile_length_le isPySpace l

/-- Function `lastDotIdx` returns a valid index that holds a `'.'`. -/
theorem lastDotIdx_spec :
    ∀ (l : List Char) (i : Nat), lastDotIdx l = some i →
      i < l.length ∧ l[i]? = some '.' := by
  intro l
  induction l with
  | nil => intro i h; cases h
  | cons c rest ih =>
    intro i h
    unfold lastDotIdx at h
    cases hr : lastDotIdx rest with
    | some j =>
      rw [hr] at h
      injection h with h
      subst h
      obtain ⟨h1, h2⟩ := ih j hr
      refine ⟨by simpa using Nat.succ_lt_succ h1, ?_⟩
      simpa using h2
    | none =>
      rw [hr] at h
      by_cases hc : c = '.'
      · rw [if_pos hc] at h
        injection h with h
        subst h
        exact ⟨Nat.succ_pos _, by simp [hc]⟩
      · rw [if_neg hc] at h
        cases h

/-- The truncation step never exceeds its limit plus the `"..."` marker. -/
theorem truncateAt_length_le (maxLen minDot : Nat) (l : List Char) :
    (truncateAt maxLen minDot l).length ≤ maxLen + 3 := by
  unfold truncateAt
  split
  · cases hd : lastDotIdx (l.take maxLen) with
    | some i =>
      show (if i > minDot then (l.take maxLen).take (i + 1)
        else l.take maxLen ++ ['.', '.', '.']).length ≤ maxLen + 3
      by_cases hi : i > minDot
      · rw [if_pos hi]
        simp only [List.length_take]
        omega
      · rw [if_neg hi]
        simp only [List.length_append, List.length_take, List.length_cons,
          List.length_nil]
        omega
    | none =>
      show (l.take maxLen ++ ['.', '.', '.']).length ≤ maxLen + 3
      simp only [List.length_append, List.length_take, List.length_cons,
        List.length_nil]
      omega
  · next hlen => omega

/-- When the limit is exceeded, the truncated text ends with `'.'` (either a
sentence boundary or the appended `"..."`). -/
theorem truncateAt_ends_dot (maxLen minDot : Nat) (l : List Char)
    (h : l.length > maxLen) :
    (truncateAt maxLen minDot l).getLast? = some '.' := by
  unfold truncateAt
  rw [if_pos h]
  cases hd : lastDotIdx (l.take maxLen) with
  | some i =>
    obtain ⟨hlt, hget⟩ := lastDotIdx_spec (l.take maxLen) i hd
    show (if i > minDot then (l.take maxLen).take (i + 1)
      else l.take maxLen ++ ['.', '.', '.']).getLast? = some '.'
    by_cases hi : i > minDot
    · rw [if_pos hi, List.take_succ, hget]
      simp
    · rw [if_neg hi]
      simp
  | none =>
    show (l.take maxLen ++ ['.', '.', '.']).getLast? = some '.'
    simp

/-- The long inputs of the counterexample: a 400-character description with
no sentence boundary and a 150-character date text. -/
def longDescA : String := ⟨List.replicate 400 'a'⟩

/-- See `longDescA`. -/
def longDateD : String := ⟨List.replicate 150 'd'⟩

/-- Claim C8 counterexample: After truncating the 400-character description to
203 characters, `create_short_description` appends the 150-character date
text (it is not contained in the truncated text), producing 354 characters —
beyond every stated bound — and the result ends with `'d'`, neither at a
sentence boundary `'.'` nor with the `'...'` marker. -/
theorem C8_description_bound_counterexample :
    300 < (create_short_description longDescA longDateD).length
    ∧ (create_short_description longDescA longDateD).data.getLast? = some 'd' := by
  constructor
  · decide
  · decide

/-- Claim C8 amended: With no date appended, the scraper's description is at
most 203 characters (200 plus the `"..."` marker) and, when truncation was
applied, ends with `'.'`; the spider's `clean_description` is bounded by 303.
Appending a date text, however, adds its full length on top of the 204-bound,
so the output length is only bounded by `204 + len(event_date)` — the claimed
fixed 300/200-character bound fails (see the counterexample). -/
theorem C8_description_bound_amended (description event_date : String) :
    (create_short_description description "").length ≤ 203
    ∧ ((pyStripList description.data).length > 200 →
        (create_short_description description "").data.getLast? = some '.')
    ∧ (create_short_description description event_date).length ≤
        204 + event_date.length
    ∧ (clean_description description).length ≤ 303 := by
  have hcsd : create_short_description description "" =
      ⟨truncateDesc (pyStripList description.data)⟩ := by
    unfold create_short_description
    simp
  refine ⟨?_, ?_, ?_, ?_⟩
  · rw [hcsd]
    show (truncateDesc (pyStripList description.data)).length ≤ 203
    exact truncateAt_length_le 200 100 _
  · intro hlong
    rw [hcsd]
    show (truncateDesc (pyStripList description.data)).getLast? = some '.'
    exact truncateAt_ends_dot 200 100 _ hlong
  · have hdate : event_date.length = event_date.data.length := rfl
    have htr : (truncateDesc (pyStripList description.data)).length ≤ 203 :=
      truncateAt_length_le 200 100 _
    unfold create_short_description
    split
    · show (pyStripList (truncateDesc (pyStripList description.data) ++
        ' ' :: event_date.data)).length ≤ 204 + event_date.length
      calc (pyStripList (truncateDesc (pyStripList description.data) ++
            ' ' :: event_date.data)).length
          ≤ (truncateDesc (pyStripList description.data) ++
            ' ' :: event_date.data).length := pyStripList_length_le _
        _ = (truncateDesc (pyStripList description.data)).length +
            (event_date.data.length + 1) := by
            simp [List.length_append]
        _ ≤ 204 + event_date.length := by omega
    · show (truncateDesc (pyStripList description.data)).length ≤
        204 + event_date.length
      omega
  · unfold clean_description
    split
    · show (0 : Nat) ≤ 303
      omega
    · show (truncateAt 300 150
        (collapseSpaces (pyStripList description.data))).length ≤ 303
      exact truncateAt_length_le 300 150 _

/-- Claim C8 witness: The amended bounds applied to a 250-character
description with no date: the output has 203 characters and ends with
`'.'`. -/
theorem C8_description_bound_witness :
    (pyStripList (⟨List.replicate 250 'a'⟩ : String).data).length > 200
    ∧ (create_short_description ⟨List.replicate 250 'a'⟩ "").data.getLast? =
        some '.'
    ∧ (create_short_description ⟨List.replicate 250 'a'⟩ "").length ≤ 203 :=
  ⟨by decide,
   (C8_description_bound_amended ⟨List.replicate 250 'a'⟩ "").2.1 (by decide),
   (C8_description_bound_amended ⟨List.replicate 250 'a'⟩ "").1⟩

/-! ## C9 -/

/-- A record that would pass validation except for its absent `type`. -/
def itemNoType : Item :=
  { id := some "abc123def456", name := some "Test Venue",
    source_url := some "https://example.org/event.html" }

/-- Claim C9 counterexample: A record with a missing `type` is *dropped*, not
emitted with the `event_venue` default: `ValidationPipeline` (priority 200)
rejects it before `POINormalizationPipeline` (priority 300) could apply the
default. -/
theorem C9_type_default_counterexample :
    itemNoType.type = none ∧ processItem itemNoType = none := by
  decide

/-- Claim C9 amended: A missing or empty `type` drops the record (validation
runs first); only a *non-empty* value outside the four-value enum is replaced
by `event_venue`, and an enum value is kept unchanged. -/
theorem C9_type_default_amended (it : Item) :
    ((it.type = none ∨ it.type = some "") → processItem it = none)
    ∧ (∀ t, it.type = some t → validationProcessItem it = some it →
        typeEnum.contains (pyStrip (pyLower t)) = false →
        (processItem it).map Item.type = some (some "event_venue"))
    ∧ (∀ t, it.type = some t → validationProcessItem it = some it →
        typeEnum.contains (pyStrip (pyLower t)) = true →
        (processItem it).map Item.type = some (some t)) := by
  refine ⟨?_, ?_, ?_⟩
  · intro h
    have hv : validationProcessItem it = none := by
      unfold validationProcessItem
      split
      · rfl
      next h1 =>
        split
        · rfl
        next h2 =>
          split
          · rfl
          next h3 =>
            exfalso
            rcases h with h | h <;> simp [h, truthyStr] at h3
    simp [processItem, hv]
  · intro t ht hval hcont
    have hty : (poiNormalizationProcessItem it).type = normalizeType it.type := rfl
    simp only [processItem, hval, Option.map_some', hty]
    rw [ht]
    simp at hcont
    simp [normalizeType, hcont]
  · intro t ht hval hcont
    have hty : (poiNormalizationProcessItem it).type = normalizeType it.type := rfl
    simp only [processItem, hval, Option.map_some', hty]
    rw [ht]
    simp at hcont
    simp [normalizeType, hcont]

/-- A record with a non-empty `type` outside the enum. -/
def itemBadType : Item :=
  { id := some "abc123def456", name := some "Test Venue", type := some "venue" }

/-- A record with a valid enum `type`. -/
def itemEnumType : Item :=
  { id := some "abc123def456", name := some "Test Venue",
    type := some "restaurant" }

/-- Claim C9 witness: The amended behaviour at concrete records: `"venue"` is
replaced by `"event_venue"`, `"restaurant"` is kept. -/
theorem C9_type_default_witness :
    (itemBadType.type = some "venue"
     ∧ validationProcessItem itemBadType = some itemBadType
     ∧ typeEnum.contains (pyStrip (pyLower "venue")) = false
     ∧ (processItem itemBadType).map Item.type = some (some "event_venue"))
    ∧ (processItem itemEnumType).map Item.type = some (some "restaurant") :=
  ⟨⟨rfl, by decide, by decide,
    (C9_type_default_amended itemBadType).2.1 "venue" rfl (by decide) (by decide)⟩,
   (C9_type_default_amended itemEnumType).2.2 "restaurant" rfl (by decide)
     (by decide)⟩

/-! ## C10 -/

/-- The loop invariant of the main dedup loop: accepted events carry pairwise
distinct URLs, all recorded in the `seen_urls` set. -/
def dedupInv (st : List Ev × List String) : Prop :=
  (st.1.map Ev.source_url).Nodup ∧ ∀ e ∈ st.1, e.source_url ∈ st.2

/-- Appending a fresh element preserves `Nodup`. -/
theorem nodup_append_singleton {α : Type} (l : List α) (a : α)
    (h : l.Nodup) (ha : a ∉ l) : (l ++ [a]).Nodup := by
  simp [List.nodup_append, h, ha]

/-- An accepted event's URL was not in the `seen_urls` set. -/
theorem accept_not_seen (seen : List String) (e : Ev)
    (h : acceptEvent seen e = true) : e.source_url ∉ seen := by
  unfold acceptEvent at h
  simp only [Bool.and_eq_true, Bool.not_eq_true'] at h
  have hc := h.1.1.1
  simp at hc
  exact hc

/-- The inner dedup loop preserves the invariant. -/
theorem dedupPage_inv :
    ∀ (page : List Ev) (st : List Ev × List String),
      dedupInv st → dedupInv (dedupPage page st) := by
  intro page
  induction page with
  | nil => intro st h; exact h
  | cons e es ih =>
    intro st h
    obtain ⟨evs, seen⟩ := st
    obtain ⟨hnd, hmem⟩ := h
    unfold dedupPage
    split
    · next hacc =>
      apply ih
      constructor
      · rw [List.map_append]
        apply nodup_append_singleton _ _ hnd
        intro hin
        obtain ⟨e', he', hurl⟩ := List.mem_map.mp hin
        exact accept_not_seen seen e hacc (hurl ▸ hmem e' he')
      · intro e' he'
        rcases List.mem_append.mp he' with h' | h'
        · exact List.mem_append_left _ (hmem e' h')
        · rcases List.mem_singleton.mp h' with rfl
          exact List.mem_append_right _ (List.mem_singleton.mpr rfl)
    · exact ih (evs, seen) ⟨hnd, hmem⟩

/-- The outer dedup loop preserves the invariant. -/
theorem dedupPages_inv :
    ∀ (pages : List (List Ev)) (st : List Ev × List String),
      dedupInv st → dedupInv (dedupPages pages st) := by
  intro pages
  induction pages with
  | nil => intro st h; exact h
  | cons p ps ih =>
    intro st h
    exact ih (dedupPage p st) (dedupPage_inv p st h)

/-- A concrete event record reachable from both a main page and a
pagination-discovered page. -/
def sakuraEv : Ev :=
  ⟨"Sakura Festival", "https://www.gotokyo.org/en/event/sakura.html"⟩

/-- Claim C10 counterexample: When the same event appears on a main page and on
a pagination-discovered additional page, the final batch contains it twice
(identical records, hence identical ids and source URLs): the pagination
block `extend`s the batch without any dedup check. -/
theorem C10_dedup_counterexample :
    scrape_all_events [[sakuraEv]] [[sakuraEv]] = [sakuraEv, sakuraEv]
    ∧ ¬ ((scrape_all_events [[sakuraEv]] [[sakuraEv]]).map Ev.source_url).Nodup := by
  constructor
  · decide
  · decide

/-- Claim C10 amended: The records accepted by the main per-URL loop do have
pairwise distinct source URLs (and hence ids); but the final batch is that
list followed by the additional pages' events appended verbatim, so
duplicates can enter through pagination. -/
theorem C10_dedup_amended (mainPages additionalPages : List (List Ev)) :
    ((dedupPages mainPages ([], [])).1.map Ev.source_url).Nodup
    ∧ scrape_all_events mainPages additionalPages =
        (dedupPages mainPages ([], [])).1 ++ additionalPages.flatten := by
  constructor
  · have h0 : dedupInv ([], []) := by
      constructor
      · exact List.nodup_nil
      · intro e he
        exact absurd he (List.not_mem_nil e)
    exact (dedupPages_inv mainPages ([], []) h0).1
  · rfl

end TravelPlanner
